import Mathlib

/-!
Verification of the maintenance-request status pipeline of the kefiat
tenant/manager portal.

The definitions below are a shallow embedding of the request router
(src/unnamed/part_001, the later revision of routes/requests.ts, which the
deployed application uses):

  - createRequest  embeds  router.post("/")            (tenant creates a request)
  - closeEarly     embeds  router.patch("/:id/close")  (tenant closes a request)
  - closeRoute     embeds  the same route including the auth / ownership guards
  - advanceStatus  embeds  router.patch("/:id/status") (manager advances the pipeline)
  - updatePriority embeds  router.patch("/:id/priority")

Instants are modelled as natural numbers; a Prisma nullable DateTime column is
an Option Nat.  The JavaScript expression a ?? b is Option.getD, and JS string
truthiness (undefined and "" are falsy) is the predicate falsy below.
-/

namespace Kefiat

/-- The five pipeline positions, exactly the RequestStatus union type of the
source (and the Postgres enum of the same name). -/
inductive RequestStatus
  | in_queue
  | viewed
  | maintenance_requested
  | implementing_actions
  | completed
deriving DecidableEq, Fintype

/-- The role of an authenticated user (Role / UpdatedByRole enums; the source
stores tenant, manager, admin for users and tenant, manager, system in
lastUpdatedByRole; we take their union). -/
inductive Role
  | tenant
  | manager
  | admin
  | system
deriving DecidableEq, Fintype

/-- The ordered pipeline, statusPipeline in the source. -/
def statusPipeline : List RequestStatus :=
  [RequestStatus.in_queue, RequestStatus.viewed, RequestStatus.maintenance_requested,
   RequestStatus.implementing_actions, RequestStatus.completed]

/-- statusPipeline.indexOf, the index lookup both routes use. -/
def statusIndex (s : RequestStatus) : Nat :=
  statusPipeline.indexOf s

/-- The Request row (Prisma model Request), restricted to the columns the
router reads or writes.  createdAt is nullable here because the close and
status routes guard it with the JS coalescing operator (createdAt ?? now). -/
structure Request where
  tenantId : Nat
  unit : String
  category : String
  description : String
  phone : String
  accessInstructions : Option String
  preferredWindow1 : String
  preferredWindow2 : Option String
  priority : String
  status : RequestStatus
  lastUpdatedByRole : Role
  createdAt : Option Nat
  inQueueAt : Option Nat
  viewedAt : Option Nat
  maintenanceRequestedAt : Option Nat
  implementingActionsAt : Option Nat
  completedAt : Option Nat
deriving DecidableEq

/-- The stage-timestamp column belonging to a pipeline stage. -/
def stampAt (r : Request) : RequestStatus → Option Nat
  | RequestStatus.in_queue => r.inQueueAt
  | RequestStatus.viewed => r.viewedAt
  | RequestStatus.maintenance_requested => r.maintenanceRequestedAt
  | RequestStatus.implementing_actions => r.implementingActionsAt
  | RequestStatus.completed => r.completedAt

/-- The five stage-timestamp columns in pipeline order. -/
def stampList (r : Request) : List (Option Nat) :=
  [r.inQueueAt, r.viewedAt, r.maintenanceRequestedAt,
   r.implementingActionsAt, r.completedAt]

/-- Length of the contiguous set-timestamp prefix starting at index 0. -/
def contiguousStampLen (r : Request) : Nat :=
  ((stampList r).takeWhile Option.isSome).length

/-- Invariant I1 of the specification: the status index is the highest index h
such that the stage timestamps at indices 0..h are all set and form a
contiguous prefix from index 0 (equivalently, the contiguous set prefix has
length statusIndex + 1). -/
def I1 (r : Request) : Prop :=
  contiguousStampLen r = statusIndex r.status + 1

deriving instance DecidableEq for Except

instance (r : Request) : Decidable (I1 r) :=
  inferInstanceAs (Decidable (contiguousStampLen r = statusIndex r.status + 1))

/-- JS truthiness test used by the router on optional request-body strings:
undefined and the empty string are falsy. -/
def falsy (s : Option String) : Prop :=
  s.getD "" = ""

instance (s : Option String) : Decidable (falsy s) :=
  inferInstanceAs (Decidable (s.getD "" = ""))

/-- allowedPriorities in the source. -/
def allowedPriorities : List String :=
  ["low", "normal", "high", "emergency"]

/-- allowedWindowOptions in the source: the 2-hour windows between 8:00 and
17:00. -/
def allowedWindowOptions : List String :=
  ["08:00-10:00", "09:00-11:00", "10:00-12:00", "11:00-13:00",
   "12:00-14:00", "13:00-15:00", "14:00-16:00", "15:00-17:00"]

/-- The JSON body accepted by router.post("/"); every field may be absent. -/
structure CreateBody where
  unit : Option String
  category : Option String
  description : Option String
  phone : Option String
  priority : Option String
  accessInstructions : Option String
  preferredWindow1 : Option String
  preferredWindow2 : Option String
deriving DecidableEq

/-- The client-visible rejections of router.post("/"). -/
inductive CreateError
  | missingRequiredFields
  | invalidWindow1
  | invalidWindow2
  | duplicateWindows
deriving DecidableEq

/-- router.post("/"): validation and row construction of the create route.
The database supplies createdAt = now (column default CURRENT_TIMESTAMP) and
the route itself writes status = in_queue, lastUpdatedByRole = tenant and
inQueueAt = now; every other stage timestamp starts unset. -/
def createRequest (body : CreateBody) (tenantId : Nat) (now : Nat) :
    Except CreateError Request :=
  if falsy body.unit ∨ falsy body.category ∨ falsy body.description ∨ falsy body.phone then
    Except.error CreateError.missingRequiredFields
  else
    let prioritySafe : String :=
      if ¬ falsy body.priority ∧ body.priority.getD "" ∈ allowedPriorities then
        body.priority.getD ""
      else "normal"
    let w1 := body.preferredWindow1.getD ""
    let w2 := body.preferredWindow2.getD ""
    if falsy body.preferredWindow1 ∨ w1 ∉ allowedWindowOptions then
      Except.error CreateError.invalidWindow1
    else if ¬ falsy body.preferredWindow2 ∧ w2 ∉ allowedWindowOptions then
      Except.error CreateError.invalidWindow2
    else if ¬ falsy body.preferredWindow1 ∧ ¬ falsy body.preferredWindow2 ∧ w1 = w2 then
      Except.error CreateError.duplicateWindows
    else
      Except.ok
        { tenantId := tenantId
          unit := body.unit.getD ""
          category := body.category.getD ""
          description := body.description.getD ""
          phone := body.phone.getD ""
          accessInstructions :=
            if falsy body.accessInstructions then none else body.accessInstructions
          preferredWindow1 := w1
          preferredWindow2 := if falsy body.preferredWindow2 then none else some w2
          priority := prioritySafe
          status := RequestStatus.in_queue
          lastUpdatedByRole := Role.tenant
          createdAt := some now
          inQueueAt := some now
          viewedAt := none
          maintenanceRequestedAt := none
          implementingActionsAt := none
          completedAt := none }

/-- The single client-visible rejection of the status route beyond auth and
lookup failures (the invalid-status 400 cannot arise once the requested value
is typed as RequestStatus, mirroring allowedStatusValues.includes). -/
inductive AdvanceError
  | outOfOrder
deriving DecidableEq

/-- router.patch("/:id/status") after auth and lookup: the manager-driven
pipeline transition.  A requested status differing from the current one must
sit exactly one pipeline position ahead; the route then back-fills inQueueAt
from createdAt ?? now when unset and stamps the requested stage with now only
when that stage's timestamp is still unset. -/
def advanceStatus (existing : Request) (status : RequestStatus) (now : Nat) :
    Except AdvanceError Request :=
  let currentIndex := statusIndex existing.status
  let nextIndex := statusIndex status
  if status ≠ existing.status ∧ nextIndex ≠ currentIndex + 1 then
    Except.error AdvanceError.outOfOrder
  else
    let base := { existing with status := status, lastUpdatedByRole := Role.manager }
    let withQueue :=
      if existing.inQueueAt = none then
        { base with inQueueAt := some (existing.createdAt.getD now) }
      else base
    let stamped :=
      match status with
      | RequestStatus.in_queue =>
          if existing.inQueueAt = none then
            { withQueue with inQueueAt := some now }
          else withQueue
      | RequestStatus.viewed =>
          if existing.viewedAt = none then
            { withQueue with viewedAt := some now }
          else withQueue
      | RequestStatus.maintenance_requested =>
          if existing.maintenanceRequestedAt = none then
            { withQueue with maintenanceRequestedAt := some now }
          else withQueue
      | RequestStatus.implementing_actions =>
          if existing.implementingActionsAt = none then
            { withQueue with implementingActionsAt := some now }
          else withQueue
      | RequestStatus.completed =>
          if existing.completedAt = none then
            { withQueue with completedAt := some now }
          else withQueue
    Except.ok stamped

/-- router.patch("/:id/close") after auth and ownership: the tenant-driven
early closure.  Already-completed requests are returned unchanged; otherwise
the route back-fills inQueueAt from createdAt ?? now when unset, back-fills a
later stage with now only when that stage is unset AND its index does not
exceed the current status index (a stage the request already reached), and
finally sets completedAt to completedAt ?? now, status to completed and
lastUpdatedByRole to tenant. -/
def closeEarly (existing : Request) (now : Nat) : Request :=
  if existing.status = RequestStatus.completed then existing
  else
    let base :=
      { existing with status := RequestStatus.completed, lastUpdatedByRole := Role.tenant }
    let d1 :=
      if existing.inQueueAt = none then
        { base with inQueueAt := some (existing.createdAt.getD now) }
      else base
    let d2 :=
      if existing.viewedAt = none ∧ existing.status ≠ RequestStatus.in_queue then
        { d1 with viewedAt := some now }
      else d1
    let d3 :=
      if existing.maintenanceRequestedAt = none ∧
          statusIndex RequestStatus.maintenance_requested ≤ statusIndex existing.status then
        { d2 with maintenanceRequestedAt := some (existing.maintenanceRequestedAt.getD now) }
      else d2
    let d4 :=
      if existing.implementingActionsAt = none ∧
          statusIndex RequestStatus.implementing_actions ≤ statusIndex existing.status then
        { d3 with implementingActionsAt := some (existing.implementingActionsAt.getD now) }
      else d3
    { d4 with completedAt := some (existing.completedAt.getD now) }

/-- The HTTP outcomes of router.patch("/:id/close"): 403 from ensureTenant,
404 from the combined existence/ownership check, or the updated request. -/
inductive CloseResp
  | forbidden
  | notFound
  | ok (request : Request)
deriving DecidableEq

/-- router.patch("/:id/close") including its guards: ensureTenant rejects any
non-tenant caller with 403; a missing row or a row owned by a different tenant
is rejected with 404 (the same not-found response in both cases); otherwise
the closure logic above runs. -/
def closeRoute (userRole : Role) (userId : Nat) (existing : Option Request)
    (now : Nat) : CloseResp :=
  if userRole ≠ Role.tenant then CloseResp.forbidden
  else
    match existing with
    | none => CloseResp.notFound
    | some ex =>
        if ex.tenantId ≠ userId then CloseResp.notFound
        else CloseResp.ok (closeEarly ex now)

/-- The client-visible rejection of router.patch("/:id/priority"). -/
inductive PriorityError
  | invalidPriority
deriving DecidableEq

/-- router.patch("/:id/priority") after auth and lookup: a falsy or
unrecognized priority is rejected, otherwise stored verbatim. -/
def updatePriority (existing : Request) (priority : Option String) :
    Except PriorityError Request :=
  if falsy priority ∨ priority.getD "" ∉ allowedPriorities then
    Except.error PriorityError.invalidPriority
  else
    Except.ok { existing with priority := priority.getD "", lastUpdatedByRole := Role.manager }

/-- One mutating invocation against a stored request.  Each carries the
instant new Date() produced inside that invocation. -/
inductive Op
  | advance (requested : RequestStatus) (now : Nat)
  | close (now : Nat)
  | setPriority (priority : Option String)
deriving DecidableEq

/-- Applying one invocation to the persisted row: a rejected invocation
performs no write, so the row is unchanged. -/
def applyOp (r : Request) : Op → Request
  | Op.advance requested now =>
      match advanceStatus r requested now with
      | Except.ok r' => r'
      | Except.error _ => r
  | Op.close now => closeEarly r now
  | Op.setPriority p =>
      match updatePriority r p with
      | Except.ok r' => r'
      | Except.error _ => r

/-- Applying a sequence of invocations in order. -/
def applyOps (r : Request) (ops : List Op) : Request :=
  ops.foldl applyOp r

/-- Every set stage timestamp of r is at most t. -/
def StampsBounded (r : Request) (t : Nat) : Prop :=
  ∀ s a, stampAt r s = some a → a ≤ t

/-- Invariant I3 of the specification: set stage timestamps are non-decreasing
along the pipeline order. -/
def MonoStamps (r : Request) : Prop :=
  ∀ s1 s2 a b, statusIndex s1 < statusIndex s2 →
    stampAt r s1 = some a → stampAt r s2 = some b → a ≤ b

/-- Exactly the stages up to index k carry a timestamp. -/
def SetUpTo (r : Request) (k : Nat) : Prop :=
  ∀ s, (stampAt r s).isSome ↔ statusIndex s ≤ k

/-- The timestamp shape produced by an early closure from a stage of index k:
the stages up to index k carry a timestamp, the completed stage does, and the
stages strictly between are unset. -/
def EarlyClosedShape (r : Request) (k : Nat) : Prop :=
  ∀ s, (stampAt r s).isSome ↔ (statusIndex s ≤ k ∨ s = RequestStatus.completed)

/-- The timestamp shapes a stored request can exhibit: either the set stamps
are exactly the contiguous prefix ending at the current status, or the request
was closed early from a stage of index k below implementing_actions. -/
def Shape (r : Request) : Prop :=
  SetUpTo r (statusIndex r.status) ∨
    (r.status = RequestStatus.completed ∧ ∃ k, k < 4 ∧ EarlyClosedShape r k)

/-- The inductive invariant carried through every reachability proof. -/
def Inv (r : Request) (t : Nat) : Prop :=
  StampsBounded r t ∧ MonoStamps r ∧ Shape r

/-- Requests reachable through the router under a clock that never runs
backwards: Reachable r t states that the row r can be produced by a creation
followed by any sequence of status advances, early closures and priority
updates whose invocation instants are non-decreasing and end at t. -/
inductive Reachable : Request → Nat → Prop
  | created (body : CreateBody) (tenantId now : Nat) (r : Request) :
      createRequest body tenantId now = Except.ok r → Reachable r now
  | advanced (r : Request) (t : Nat) (requested : RequestStatus) (now : Nat)
      (r' : Request) :
      Reachable r t → t ≤ now → advanceStatus r requested now = Except.ok r' →
      Reachable r' now
  | closedEarly (r : Request) (t now : Nat) :
      Reachable r t → t ≤ now → Reachable (closeEarly r now) now
  | priorityChanged (r : Request) (t : Nat) (p : Option String) (r' : Request) :
      Reachable r t → updatePriority r p = Except.ok r' → Reachable r' t

/-- Reachability as above, but with early closure only permitted once the
request has reached implementing_actions (or is already completed). -/
inductive ReachableAligned : Request → Nat → Prop
  | created (body : CreateBody) (tenantId now : Nat) (r : Request) :
      createRequest body tenantId now = Except.ok r → ReachableAligned r now
  | advanced (r : Request) (t : Nat) (requested : RequestStatus) (now : Nat)
      (r' : Request) :
      ReachableAligned r t → t ≤ now → advanceStatus r requested now = Except.ok r' →
      ReachableAligned r' now
  | closedEarly (r : Request) (t now : Nat) :
      ReachableAligned r t → t ≤ now →
      statusIndex RequestStatus.implementing_actions ≤ statusIndex r.status →
      ReachableAligned (closeEarly r now) now
  | priorityChanged (r : Request) (t : Nat) (p : Option String) (r' : Request) :
      ReachableAligned r t → updatePriority r p = Except.ok r' → ReachableAligned r' t

/-- A well-formed creation body used by the concrete witnesses. -/
def exBody : CreateBody :=
  { unit := some "12B"
    category := some "plumbing"
    description := some "leaking sink"
    phone := some "0500000000"
    priority := none
    accessInstructions := none
    preferredWindow1 := some "08:00-10:00"
    preferredWindow2 := none }

/-- The row router.post("/") stores for exBody at instant 0 on behalf of
tenant 7. -/
def exReq0 : Request :=
  { tenantId := 7
    unit := "12B"
    category := "plumbing"
    description := "leaking sink"
    phone := "0500000000"
    accessInstructions := none
    preferredWindow1 := "08:00-10:00"
    preferredWindow2 := none
    priority := "normal"
    status := RequestStatus.in_queue
    lastUpdatedByRole := Role.tenant
    createdAt := some 0
    inQueueAt := some 0
    viewedAt := none
    maintenanceRequestedAt := none
    implementingActionsAt := none
    completedAt := none }

/-- exReq0 after the manager advances it to viewed at instant 1. -/
def exReq1 : Request :=
  { exReq0 with
    status := RequestStatus.viewed
    lastUpdatedByRole := Role.manager
    viewedAt := some 1 }

/-- Scenario C of the specification: a request of tenant 7 sitting at
maintenance_requested, stamped through index 2, with the last two stages
unset. -/
def reqC : Request :=
  { exReq0 with
    status := RequestStatus.maintenance_requested
    lastUpdatedByRole := Role.manager
    viewedAt := some 1
    maintenanceRequestedAt := some 2 }

/-- An already-completed request, fully stamped. -/
def reqD : Request :=
  { exReq0 with
    status := RequestStatus.completed
    lastUpdatedByRole := Role.manager
    viewedAt := some 1
    maintenanceRequestedAt := some 2
    implementingActionsAt := some 3
    completedAt := some 4 }

/-- A row predating the timestamp tracking: it sits at viewed, yet viewedAt
was never recorded. -/
def reqLegacy : Request :=
  { exReq0 with
    status := RequestStatus.viewed
    lastUpdatedByRole := Role.manager
    viewedAt := none }

/-- reqLegacy after the manager advances it to maintenance_requested at
instant 5: the unset viewedAt is not back-filled. -/
def reqLegacyAdv : Request :=
  { reqLegacy with
    status := RequestStatus.maintenance_requested
    lastUpdatedByRole := Role.manager
    maintenanceRequestedAt := some 5 }

/-- reqLegacy after the manager re-confirms viewed at instant 7: the route
stamps viewedAt even though the status does not change. -/
def reqLegacySame : Request :=
  { reqLegacy with
    lastUpdatedByRole := Role.manager
    viewedAt := some 7 }

/-- exBody with a priority value outside the allowed enumeration. -/
def exBodyBadPriority : CreateBody :=
  { exBody with priority := some "urgent" }

@[simp]
theorem statusIndex_in_queue : statusIndex RequestStatus.in_queue = 0 := rfl

@[simp]
theorem statusIndex_viewed : statusIndex RequestStatus.viewed = 1 := rfl

@[simp]
theorem statusIndex_maintenance_requested :
    statusIndex RequestStatus.maintenance_requested = 2 := rfl

@[simp]
theorem statusIndex_implementing_actions :
    statusIndex RequestStatus.implementing_actions = 3 := rfl

@[simp]
theorem statusIndex_completed : statusIndex RequestStatus.completed = 4 := rfl

theorem statusIndex_inj :
    ∀ s1 s2 : RequestStatus, statusIndex s1 = statusIndex s2 → s1 = s2 := by decide

theorem statusIndex_le_four : ∀ s : RequestStatus, statusIndex s ≤ 4 := by decide

theorem statusIndex_lt_four_iff :
    ∀ s : RequestStatus, statusIndex s < 4 ↔ s ≠ RequestStatus.completed := by decide

theorem three_le_statusIndex_iff :
    ∀ s : RequestStatus,
      statusIndex RequestStatus.implementing_actions ≤ statusIndex s ↔
        s = RequestStatus.implementing_actions ∨ s = RequestStatus.completed := by decide

theorem createRequest_ok_fields {body : CreateBody} {tenantId now : Nat} {r : Request}
    (h : createRequest body tenantId now = Except.ok r) :
    r.status = RequestStatus.in_queue ∧ r.lastUpdatedByRole = Role.tenant ∧
    r.createdAt = some now ∧ r.inQueueAt = some now ∧ r.viewedAt = none ∧
    r.maintenanceRequestedAt = none ∧ r.implementingActionsAt = none ∧
    r.completedAt = none ∧ r.tenantId = tenantId ∧
    (falsy body.priority ∨ body.priority.getD "" ∉ allowedPriorities →
      r.priority = "normal") ∧
    (¬ falsy body.priority → body.priority.getD "" ∈ allowedPriorities →
      r.priority = body.priority.getD "") := by
  simp only [createRequest] at h
  split at h
  · exact absurd h (by simp)
  split at h
  · exact absurd h (by simp)
  split at h
  · exact absurd h (by simp)
  split at h
  · exact absurd h (by simp)
  rw [Except.ok.injEq] at h
  subst h
  refine ⟨rfl, rfl, rfl, rfl, rfl, rfl, rfl, rfl, rfl, ?_, ?_⟩
  · intro hbad
    simp only
    rw [if_neg]
    tauto
  · intro h1 h2
    simp only
    rw [if_pos ⟨h1, h2⟩]

theorem updatePriority_ok_fields {r : Request} {p : Option String} {r' : Request}
    (h : updatePriority r p = Except.ok r') :
    r'.status = r.status ∧ r'.lastUpdatedByRole = Role.manager ∧
    r'.tenantId = r.tenantId ∧ r'.priority = p.getD "" ∧
    (∀ s, stampAt r' s = stampAt r s) := by
  simp only [updatePriority] at h
  split at h
  · exact absurd h (by simp)
  rw [Except.ok.injEq] at h
  subst h
  refine ⟨rfl, rfl, rfl, rfl, ?_⟩
  intro s
  cases s <;> rfl

theorem advanceStatus_isOk {r : Request} {requested : RequestStatus} {now : Nat}
    (h : requested = r.status ∨ statusIndex requested = statusIndex r.status + 1) :
    ∃ r', advanceStatus r requested now = Except.ok r' := by
  simp only [advanceStatus]
  rw [if_neg]
  · exact ⟨_, rfl⟩
  · rintro ⟨h1, h2⟩
    rcases h with h | h
    · exact h1 h
    · exact h2 h

theorem advanceStatus_ok_legal {r : Request} {requested : RequestStatus} {now : Nat}
    {r' : Request} (h : advanceStatus r requested now = Except.ok r') :
    requested = r.status ∨ statusIndex requested = statusIndex r.status + 1 := by
  simp only [advanceStatus] at h
  split at h
  · exact absurd h (by simp)
  next hc =>
    rw [not_and_or, not_not, not_not] at hc
    exact hc

theorem advanceStatus_ok_fields {r : Request} {requested : RequestStatus} {now : Nat}
    {r' : Request} (h : advanceStatus r requested now = Except.ok r') :
    r'.status = requested ∧ r'.lastUpdatedByRole = Role.manager ∧
    r'.tenantId = r.tenantId ∧ r'.priority = r.priority ∧ r'.createdAt = r.createdAt ∧
    ∀ s, stampAt r' s =
      if s = requested ∧ stampAt r s = none then some now
      else if s = RequestStatus.in_queue ∧ r.inQueueAt = none then
        some (r.createdAt.getD now)
      else stampAt r s := by
  simp only [advanceStatus] at h
  split at h
  · exact absurd h (by simp)
  next hguard =>
    rw [Except.ok.injEq] at h
    subst h
    clear hguard
    refine ⟨?_, ?_, ?_, ?_, ?_, ?_⟩
    case _ => cases requested <;> (repeat' split) <;> rfl
    case _ => cases requested <;> (repeat' split) <;> rfl
    case _ => cases requested <;> (repeat' split) <;> rfl
    case _ => cases requested <;> (repeat' split) <;> rfl
    case _ => cases requested <;> (repeat' split) <;> rfl
    intro s
    cases requested <;> cases s <;>
      simp [stampAt] <;> (repeat' split) <;> simp_all [stampAt]

theorem closeEarly_fields {r : Request} (now : Nat)
    (h : r.status ≠ RequestStatus.completed) :
    (closeEarly r now).status = RequestStatus.completed ∧
    (closeEarly r now).lastUpdatedByRole = Role.tenant ∧
    (closeEarly r now).tenantId = r.tenantId ∧
    (closeEarly r now).priority = r.priority ∧
    (closeEarly r now).createdAt = r.createdAt ∧
    ∀ s, stampAt (closeEarly r now) s =
      if s = RequestStatus.completed then some (r.completedAt.getD now)
      else if stampAt r s = none ∧ s = RequestStatus.in_queue then
        some (r.createdAt.getD now)
      else if stampAt r s = none ∧ statusIndex s ≤ statusIndex r.status then some now
      else stampAt r s := by
  simp only [closeEarly]
  rw [if_neg h]
  refine ⟨?_, ?_, ?_, ?_, ?_, ?_⟩
  case _ => (repeat' split) <;> rfl
  case _ => (repeat' split) <;> rfl
  case _ => (repeat' split) <;> rfl
  case _ => (repeat' split) <;> rfl
  case _ => (repeat' split) <;> rfl
  intro s
  cases hs : r.status
  case completed => exact absurd hs h
  all_goals
    cases s <;>
      simp [stampAt, hs] <;> (repeat' split) <;> simp_all [stampAt]

theorem closeEarly_of_completed {r : Request} (now : Nat)
    (h : r.status = RequestStatus.completed) : closeEarly r now = r := by
  simp only [closeEarly]
  rw [if_pos h]

theorem closeEarly_status (r : Request) (now : Nat) :
    (closeEarly r now).status = RequestStatus.completed := by
  by_cases h : r.status = RequestStatus.completed
  · rw [closeEarly_of_completed now h]
    exact h
  · exact (closeEarly_fields now h).1

theorem Shape.inQueue_isSome {r : Request} (h : Shape r) : r.inQueueAt.isSome := by
  rcases h with h | ⟨_, k, _, h⟩
  · have := (h RequestStatus.in_queue).mpr (by simp)
    simpa [stampAt] using this
  · have := (h RequestStatus.in_queue).mpr (Or.inl (by simp))
    simpa [stampAt] using this

theorem Shape.current_isSome {r : Request} (h : Shape r) :
    (stampAt r r.status).isSome := by
  rcases h with h | ⟨hc, k, _, h⟩
  · exact (h r.status).mpr le_rfl
  · rw [hc]
    exact (h RequestStatus.completed).mpr (Or.inr rfl)

theorem Shape.congr {r r' : Request} (hs : r'.status = r.status)
    (hst : ∀ s, stampAt r' s = stampAt r s) (h : Shape r) : Shape r' := by
  rcases h with h | ⟨h1, k, hk, h2⟩
  · exact Or.inl fun s => by rw [hst s, hs]; exact h s
  · exact Or.inr ⟨hs.trans h1, k, hk, fun s => by rw [hst s]; exact h2 s⟩

theorem Inv.created {body : CreateBody} {tid now : Nat} {r : Request}
    (h : createRequest body tid now = Except.ok r) : Inv r now := by
  obtain ⟨hst, _, _, hq, hv, hm, hi, hc, _⟩ := createRequest_ok_fields h
  refine ⟨?_, ?_, Or.inl ?_⟩
  · intro s a hs
    cases s <;> simp_all [stampAt]
  · intro s1 s2 a b hlt h1 h2
    cases s1 <;> cases s2 <;> simp_all [stampAt]
  · intro s
    cases s <;> simp_all [stampAt]

theorem Inv.advanced {r : Request} {t : Nat} {requested : RequestStatus} {now : Nat}
    {r' : Request} (hInv : Inv r t) (hle : t ≤ now)
    (h : advanceStatus r requested now = Except.ok r') : Inv r' now := by
  obtain ⟨hB, hM, hS⟩ := hInv
  obtain ⟨hst, _, _, _, _, hstamps⟩ := advanceStatus_ok_fields h
  have hq : r.inQueueAt.isSome := Shape.inQueue_isSome hS
  rcases advanceStatus_ok_legal h with heq | hstep
  · have hcur : (stampAt r r.status).isSome := Shape.current_isSome hS
    have hunch : ∀ s, stampAt r' s = stampAt r s := by
      intro s
      rw [hstamps s, if_neg, if_neg]
      · rintro ⟨_, h2⟩
        rw [h2] at hq
        simp at hq
      · rintro ⟨h1, h2⟩
        rw [h1, heq] at h2
        rw [h2] at hcur
        simp at hcur
    refine ⟨?_, ?_, Shape.congr (hst.trans heq) hunch hS⟩
    · intro s a hs
      rw [hunch s] at hs
      exact le_trans (hB s a hs) hle
    · intro s1 s2 a b hlt h1 h2
      rw [hunch s1] at h1
      rw [hunch s2] at h2
      exact hM s1 s2 a b hlt h1 h2
  · have hS1 : SetUpTo r (statusIndex r.status) := by
      rcases hS with h' | ⟨hcomp, _⟩
      · exact h'
      · rw [hcomp] at hstep
        have := statusIndex_le_four requested
        simp at hstep
        omega
    have hreqT : stampAt r requested = none := by
      rcases hopt : stampAt r requested with _ | a
      · rfl
      · have := (hS1 requested).mp (by simp [hopt])
        omega
    have hstampReq : stampAt r' requested = some now := by
      rw [hstamps requested, if_pos ⟨rfl, hreqT⟩]
    have hother : ∀ s, s ≠ requested → stampAt r' s = stampAt r s := by
      intro s hne
      rw [hstamps s, if_neg, if_neg]
      · rintro ⟨_, h2⟩
        rw [h2] at hq
        simp at hq
      · rintro ⟨h1, _⟩
        exact hne h1
    refine ⟨?_, ?_, Or.inl ?_⟩
    · intro s a hs
      by_cases hc : s = requested
      · subst hc
        rw [hstampReq] at hs
        injection hs with hs
        omega
      · rw [hother s hc] at hs
        exact le_trans (hB s a hs) hle
    · intro s1 s2 a b hlt h1 h2
      by_cases hc2 : s2 = requested
      · rw [hc2, hstampReq] at h2
        injection h2 with h2
        by_cases hc1 : s1 = requested
        · rw [hc1, hc2] at hlt
          exact absurd hlt (lt_irrefl _)
        · rw [hother s1 hc1] at h1
          exact h2 ▸ le_trans (hB s1 a h1) hle
      · rw [hother s2 hc2] at h2
        by_cases hc1 : s1 = requested
        · exfalso
          have hidx := (hS1 s2).mp (by simp [h2])
          rw [hc1] at hlt
          omega
        · rw [hother s1 hc1] at h1
          exact hM s1 s2 a b hlt h1 h2
    · intro s
      rw [hst, hstep]
      by_cases hc : s = requested
      · subst hc
        rw [hstampReq]
        simp [hstep]
      · rw [hother s hc, hS1 s]
        constructor
        · intro hh
          omega
        · intro hh
          rcases Nat.lt_or_ge (statusIndex s) (statusIndex r.status + 1) with hh2 | hh2
          · omega
          · have heq2 : statusIndex s = statusIndex requested := by omega
            exact absurd (statusIndex_inj s requested heq2) hc

theorem Inv.closed {r : Request} {t now : Nat} (hInv : Inv r t) (hle : t ≤ now) :
    Inv (closeEarly r now) now := by
  obtain ⟨hB, hM, hS⟩ := hInv
  by_cases hcomp : r.status = RequestStatus.completed
  · rw [closeEarly_of_completed now hcomp]
    exact ⟨fun s a hs => le_trans (hB s a hs) hle, hM, hS⟩
  · obtain ⟨hst, _, _, _, _, hstamps⟩ := closeEarly_fields now hcomp
    have hS1 : SetUpTo r (statusIndex r.status) := by
      rcases hS with h' | ⟨hc, _⟩
      · exact h'
      · exact absurd hc hcomp
    have hkk : statusIndex r.status < 4 := (statusIndex_lt_four_iff r.status).mpr hcomp
    have hcompN : r.completedAt = none := by
      rcases hopt : r.completedAt with _ | a
      · rfl
      · have := (hS1 RequestStatus.completed).mp (by simp [stampAt, hopt])
        simp at this
        omega
    have hstampC : stampAt (closeEarly r now) RequestStatus.completed = some now := by
      rw [hstamps RequestStatus.completed, if_pos rfl, hcompN]
      rfl
    have hother : ∀ s, s ≠ RequestStatus.completed →
        stampAt (closeEarly r now) s = stampAt r s := by
      intro s hne
      rw [hstamps s, if_neg hne, if_neg, if_neg]
      · rintro ⟨h1, h2⟩
        have := (hS1 s).mpr h2
        rw [h1] at this
        simp at this
      · rintro ⟨h1, h2⟩
        subst h2
        have := (hS1 RequestStatus.in_queue).mpr (by simp)
        rw [h1] at this
        simp at this
    refine ⟨?_, ?_, Or.inr ⟨hst, statusIndex r.status, hkk, ?_⟩⟩
    · intro s a hs
      by_cases hc : s = RequestStatus.completed
      · subst hc
        rw [hstampC] at hs
        injection hs with hs
        omega
      · rw [hother s hc] at hs
        exact le_trans (hB s a hs) hle
    · intro s1 s2 a b hlt h1 h2
      by_cases hc2 : s2 = RequestStatus.completed
      · subst hc2
        rw [hstampC] at h2
        injection h2 with h2
        subst h2
        by_cases hc1 : s1 = RequestStatus.completed
        · subst hc1
          exact absurd hlt (lt_irrefl _)
        · rw [hother s1 hc1] at h1
          exact le_trans (hB s1 a h1) hle
      · rw [hother s2 hc2] at h2
        by_cases hc1 : s1 = RequestStatus.completed
        · subst hc1
          have := statusIndex_le_four s2
          simp at hlt
          omega
        · rw [hother s1 hc1] at h1
          exact hM s1 s2 a b hlt h1 h2
    · intro s
      by_cases hc : s = RequestStatus.completed
      · subst hc
        rw [hstampC]
        simp
      · rw [hother s hc, hS1 s]
        constructor
        · exact fun hh => Or.inl hh
        · rintro (hh | hh)
          · exact hh
          · exact absurd hh hc

theorem Inv.priorityStep {r : Request} {t : Nat} {p : Option String} {r' : Request}
    (hInv : Inv r t) (h : updatePriority r p = Except.ok r') : Inv r' t := by
  obtain ⟨hB, hM, hS⟩ := hInv
  obtain ⟨hst, _, _, _, hstamps⟩ := updatePriority_ok_fields h
  refine ⟨?_, ?_, Shape.congr hst hstamps hS⟩
  · intro s a hs
    rw [hstamps s] at hs
    exact hB s a hs
  · intro s1 s2 a b hlt h1 h2
    rw [hstamps s1] at h1
    rw [hstamps s2] at h2
    exact hM s1 s2 a b hlt h1 h2

theorem reachable_inv {r : Request} {t : Nat} (h : Reachable r t) : Inv r t := by
  induction h with
  | created body tid now r h => exact Inv.created h
  | advanced r t requested now r' _ hle hadv ih => exact Inv.advanced ih hle hadv
  | closedEarly r t now _ hle ih => exact Inv.closed ih hle
  | priorityChanged r t p r' _ hup ih => exact Inv.priorityStep ih hup

theorem aligned_created {body : CreateBody} {tid now : Nat} {r : Request}
    (h : createRequest body tid now = Except.ok r) :
    SetUpTo r (statusIndex r.status) := by
  obtain ⟨hst, _, _, hq, hv, hm, hi, hc, _⟩ := createRequest_ok_fields h
  intro s
  cases s <;> simp_all [stampAt]

theorem aligned_advanced {r : Request} {requested : RequestStatus} {now : Nat}
    {r' : Request} (hA : SetUpTo r (statusIndex r.status))
    (h : advanceStatus r requested now = Except.ok r') :
    SetUpTo r' (statusIndex r'.status) := by
  obtain ⟨hst, _, _, _, _, hstamps⟩ := advanceStatus_ok_fields h
  have hq : (stampAt r RequestStatus.in_queue).isSome := (hA _).mpr (by simp)
  rcases advanceStatus_ok_legal h with heq | hstep
  · have hcur : (stampAt r r.status).isSome := (hA r.status).mpr le_rfl
    have hunch : ∀ s, stampAt r' s = stampAt r s := by
      intro s
      rw [hstamps s, if_neg, if_neg]
      · rintro ⟨_, h2⟩
        simp [stampAt, h2] at hq
      · rintro ⟨h1, h2⟩
        rw [h1, heq] at h2
        rw [h2] at hcur
        simp at hcur
    intro s
    rw [hunch s, hst, heq]
    exact hA s
  · have hreqT : stampAt r requested = none := by
      rcases hopt : stampAt r requested with _ | a
      · rfl
      · have := (hA requested).mp (by simp [hopt])
        omega
    have hstampReq : stampAt r' requested = some now := by
      rw [hstamps requested, if_pos ⟨rfl, hreqT⟩]
    have hother : ∀ s, s ≠ requested → stampAt r' s = stampAt r s := by
      intro s hne
      rw [hstamps s, if_neg, if_neg]
      · rintro ⟨_, h2⟩
        simp [stampAt, h2] at hq
      · rintro ⟨h1, _⟩
        exact hne h1
    intro s
    rw [hst, hstep]
    by_cases hc : s = requested
    · rw [hc, hstampReq]
      simp [hstep]
    · rw [hother s hc, hA s]
      constructor
      · intro hh
        omega
      · intro hh
        rcases Nat.lt_or_ge (statusIndex s) (statusIndex r.status + 1) with hh2 | hh2
        · omega
        · have heq2 : statusIndex s = statusIndex requested := by omega
          exact absurd (statusIndex_inj s requested heq2) hc

theorem aligned_closed {r : Request} {now : Nat}
    (hA : SetUpTo r (statusIndex r.status))
    (hidx : statusIndex RequestStatus.implementing_actions ≤ statusIndex r.status) :
    SetUpTo (closeEarly r now) (statusIndex (closeEarly r now).status) := by
  rcases (three_le_statusIndex_iff r.status).mp hidx with hs | hs
  · have hcomp : r.status ≠ RequestStatus.completed := by
      rw [hs]
      intro hbad
      exact absurd hbad (by decide)
    obtain ⟨hst, _, _, _, _, hstamps⟩ := closeEarly_fields now hcomp
    have hcompN : r.completedAt = none := by
      rcases hopt : r.completedAt with _ | a
      · rfl
      · have := (hA RequestStatus.completed).mp (by simp [stampAt, hopt])
        rw [hs] at this
        simp at this
    have hstampC : stampAt (closeEarly r now) RequestStatus.completed = some now := by
      rw [hstamps RequestStatus.completed, if_pos rfl, hcompN]
      rfl
    have hother : ∀ s, s ≠ RequestStatus.completed →
        stampAt (closeEarly r now) s = stampAt r s := by
      intro s hne
      rw [hstamps s, if_neg hne, if_neg, if_neg]
      · rintro ⟨h1, h2⟩
        have := (hA s).mpr h2
        rw [h1] at this
        simp at this
      · rintro ⟨h1, h2⟩
        have := (hA s).mpr (by rw [h2]; simp)
        rw [h1] at this
        simp at this
    intro s
    rw [hst]
    simp only [statusIndex_completed]
    by_cases hc : s = RequestStatus.completed
    · rw [hc, hstampC]
      simp
    · rw [hother s hc, hA s, hs]
      simp only [statusIndex_implementing_actions]
      have h4 := statusIndex_le_four s
      constructor
      · intro hh
        omega
      · intro _
        rcases Nat.lt_or_ge (statusIndex s) 4 with hh2 | hh2
        · omega
        · have heq2 : statusIndex s = statusIndex RequestStatus.completed := by
            simp
            omega
          exact absurd (statusIndex_inj _ _ heq2) hc
  · rw [closeEarly_of_completed now hs]
    exact hA

theorem reachableAligned_setUpTo {r : Request} {t : Nat} (h : ReachableAligned r t) :
    SetUpTo r (statusIndex r.status) := by
  induction h with
  | created body tid now r h => exact aligned_created h
  | advanced r t requested now r' _ _ hadv ih => exact aligned_advanced ih hadv
  | closedEarly r t now _ _ hidx ih => exact aligned_closed ih hidx
  | priorityChanged r t p r' _ hup ih =>
      obtain ⟨hst, _, _, _, hstamps⟩ := updatePriority_ok_fields hup
      intro s
      rw [hstamps s, hst]
      exact ih s

theorem SetUpTo_I1 {r : Request} (h : SetUpTo r (statusIndex r.status)) : I1 r := by
  have h0 := h RequestStatus.in_queue
  have h1 := h RequestStatus.viewed
  have h2 := h RequestStatus.maintenance_requested
  have h3 := h RequestStatus.implementing_actions
  have h4 := h RequestStatus.completed
  simp only [stampAt] at h0 h1 h2 h3 h4
  unfold I1 contiguousStampLen stampList
  cases hs : r.status <;> rw [hs] at h0 h1 h2 h3 h4 <;>
    simp_all [List.takeWhile_cons, Option.isSome_iff_exists]

theorem stampAt_applyOp_preserved {r : Request} {s : RequestStatus} {a : Nat}
    (op : Op) (h : stampAt r s = some a) : stampAt (applyOp r op) s = some a := by
  cases op with
  | advance requested now =>
      simp only [applyOp]
      cases hadv : advanceStatus r requested now with
      | ok r' =>
          obtain ⟨_, _, _, _, _, hstamps⟩ := advanceStatus_ok_fields hadv
          rw [hstamps s, if_neg, if_neg]
          · exact h
          · rintro ⟨h1, h2⟩
            rw [h1] at h
            simp only [stampAt] at h
            rw [h2] at h
            simp at h
          · rintro ⟨_, h2⟩
            rw [h2] at h
            simp at h
      | error e => exact h
  | close now =>
      simp only [applyOp]
      by_cases hc : r.status = RequestStatus.completed
      · rw [closeEarly_of_completed now hc]
        exact h
      · obtain ⟨_, _, _, _, _, hstamps⟩ := closeEarly_fields now hc
        rw [hstamps s]
        by_cases hcs : s = RequestStatus.completed
        · rw [if_pos hcs]
          rw [hcs] at h
          simp only [stampAt] at h
          rw [h]
          rfl
        · rw [if_neg hcs, if_neg, if_neg]
          · exact h
          · rintro ⟨h1, _⟩
            rw [h1] at h
            simp at h
          · rintro ⟨h1, _⟩
            rw [h1] at h
            simp at h
  | setPriority p =>
      simp only [applyOp]
      cases hup : updatePriority r p with
      | ok r' =>
          obtain ⟨_, _, _, _, hstamps⟩ := updatePriority_ok_fields hup
          rw [hstamps s]
          exact h
      | error e => exact h

theorem stampAt_applyOps_preserved {r : Request} {s : RequestStatus} {a : Nat}
    (ops : List Op) (h : stampAt r s = some a) :
    stampAt (applyOps r ops) s = some a := by
  induction ops generalizing r with
  | nil => exact h
  | cons op ops ih => exact ih (stampAt_applyOp_preserved op h)

theorem advanceStatus_ok_payload {r : Request} {requested : RequestStatus} {now : Nat}
    {r' : Request} (h : advanceStatus r requested now = Except.ok r') :
    r'.unit = r.unit ∧ r'.category = r.category ∧ r'.description = r.description ∧
    r'.phone = r.phone ∧ r'.accessInstructions = r.accessInstructions ∧
    r'.preferredWindow1 = r.preferredWindow1 ∧
    r'.preferredWindow2 = r.preferredWindow2 := by
  simp only [advanceStatus] at h
  split at h
  · exact absurd h (by simp)
  next hguard =>
    rw [Except.ok.injEq] at h
    subst h
    clear hguard
    refine ⟨?_, ?_, ?_, ?_, ?_, ?_, ?_⟩ <;>
      (cases requested <;> (repeat' split) <;> rfl)

theorem requestExt {x y : Request}
    (h01 : x.tenantId = y.tenantId) (h02 : x.unit = y.unit)
    (h03 : x.category = y.category) (h04 : x.description = y.description)
    (h05 : x.phone = y.phone) (h06 : x.accessInstructions = y.accessInstructions)
    (h07 : x.preferredWindow1 = y.preferredWindow1)
    (h08 : x.preferredWindow2 = y.preferredWindow2) (h09 : x.priority = y.priority)
    (h10 : x.status = y.status) (h11 : x.lastUpdatedByRole = y.lastUpdatedByRole)
    (h12 : x.createdAt = y.createdAt) (h13 : x.inQueueAt = y.inQueueAt)
    (h14 : x.viewedAt = y.viewedAt)
    (h15 : x.maintenanceRequestedAt = y.maintenanceRequestedAt)
    (h16 : x.implementingActionsAt = y.implementingActionsAt)
    (h17 : x.completedAt = y.completedAt) : x = y := by
  cases x
  cases y
  simp_all

/-- C1, counterexample: the claim asserts that closeEarly stamps every stage
strictly between the current status and completed with the closing instant.
On the actual route it does not: for the scenario-C request (sitting at
maintenance_requested, implementingActionsAt and completedAt unset), closing
at instant 3 leaves implementingActionsAt unset instead of setting it to 3. -/
theorem closeEarly_scenarioC_skipped_stage_not_stamped :
    reqC.status = RequestStatus.maintenance_requested ∧
    reqC.maintenanceRequestedAt = some 2 ∧
    reqC.implementingActionsAt = none ∧ reqC.completedAt = none ∧
    statusIndex reqC.status < statusIndex RequestStatus.implementing_actions ∧
    statusIndex RequestStatus.implementing_actions <
      statusIndex RequestStatus.completed ∧
    (closeEarly reqC 3).implementingActionsAt ≠ some 3 ∧
    (closeEarly reqC 3).implementingActionsAt = none ∧
    (closeEarly reqC 3).status = RequestStatus.completed ∧
    (closeEarly reqC 3).completedAt = some 3 ∧
    (closeEarly reqC 3).maintenanceRequestedAt = some 2 ∧
    (closeEarly reqC 3).lastUpdatedByRole = Role.tenant := by
  decide

/-- C1 (amended): for every request not yet completed, closeEarly sets status
to completed and lastUpdatedByRole to tenant, sets completedAt to the existing
value if set and otherwise to the closing instant now, and leaves every stage
strictly between the current status and completed exactly as it was — the
never-reached stages are NOT stamped with the closing instant. -/
theorem closeEarly_skipped_stages_unchanged (r : Request) (now : Nat)
    (h : r.status ≠ RequestStatus.completed) :
    (closeEarly r now).status = RequestStatus.completed ∧
    (closeEarly r now).lastUpdatedByRole = Role.tenant ∧
    (closeEarly r now).completedAt = some (r.completedAt.getD now) ∧
    ∀ s, statusIndex r.status < statusIndex s →
      statusIndex s < statusIndex RequestStatus.completed →
      stampAt (closeEarly r now) s = stampAt r s := by
  obtain ⟨hst, hrole, _, _, _, hstamps⟩ := closeEarly_fields now h
  refine ⟨hst, hrole, ?_, ?_⟩
  · have := hstamps RequestStatus.completed
    rw [if_pos rfl] at this
    exact this
  · intro s hlt hlt4
    have hc1 : s ≠ RequestStatus.completed := by
      intro hcs
      rw [hcs] at hlt4
      simp at hlt4
    have hc2 : ¬(stampAt r s = none ∧ s = RequestStatus.in_queue) := by
      rintro ⟨_, hq⟩
      rw [hq] at hlt
      simp at hlt
    have hc3 : ¬(stampAt r s = none ∧ statusIndex s ≤ statusIndex r.status) := by
      rintro ⟨_, hle⟩
      omega
    rw [hstamps s, if_neg hc1, if_neg hc2, if_neg hc3]

/-- C1 witness: the amended statement instantiated at the scenario-C request
closed at instant 3. -/
theorem closeEarly_skipped_stages_unchanged_witness :
    reqC.status ≠ RequestStatus.completed ∧
    ((closeEarly reqC 3).status = RequestStatus.completed ∧
     (closeEarly reqC 3).lastUpdatedByRole = Role.tenant ∧
     (closeEarly reqC 3).completedAt = some (reqC.completedAt.getD 3) ∧
     ∀ s, statusIndex reqC.status < statusIndex s →
       statusIndex s < statusIndex RequestStatus.completed →
       stampAt (closeEarly reqC 3) s = stampAt reqC s) :=
  ⟨by decide, closeEarly_skipped_stages_unchanged reqC 3 (by decide)⟩

/-- C2, counterexample: invariant I1 is NOT preserved by every operation.  A
request created at instant 0 satisfies I1, and it is reachable to close it
early at instant 1; the closed request has status completed while only
inQueueAt and completedAt are set, so the contiguous stamped prefix stops at
in_queue and I1 fails. -/
theorem i1_broken_by_premature_close :
    createRequest exBody 7 0 = Except.ok exReq0 ∧
    Reachable (closeEarly exReq0 1) 1 ∧
    I1 exReq0 ∧ ¬ I1 (closeEarly exReq0 1) := by
  refine ⟨by decide, ?_, by decide, by decide⟩
  exact Reachable.closedEarly exReq0 0 1
    (Reachable.created exBody 7 0 exReq0 (by decide)) (by decide)

/-- C2 (amended): I1 holds after any sequence of creation, advanceStatus and
priority updates, and is also preserved by closeEarly when the request has
already reached implementing_actions (or is completed); closeEarly from an
earlier stage, which the counterexample exhibits, violates I1 because the
skipped intermediate stages stay unset while status jumps to completed. -/
theorem reachableAligned_I1 (r : Request) (t : Nat) (h : ReachableAligned r t) :
    I1 r :=
  SetUpTo_I1 (reachableAligned_setUpTo h)

/-- C2 witness: the amended statement at the concrete request created at 0 and
advanced to viewed at 1. -/
theorem reachableAligned_I1_witness : ReachableAligned exReq1 1 ∧ I1 exReq1 := by
  have hr : ReachableAligned exReq1 1 :=
    ReachableAligned.advanced exReq0 0 RequestStatus.viewed 1 exReq1
      (ReachableAligned.created exBody 7 0 exReq0 (by decide)) (by decide) (by decide)
  exact ⟨hr, reachableAligned_I1 exReq1 1 hr⟩

/-- C3, counterexample: the claim asserts that after a legal one-step advance
every stage before the target carries a timestamp, unset ones having been
back-filled.  The route only ever back-fills inQueueAt: advancing the legacy
request (status viewed, viewedAt never recorded) to maintenance_requested at
instant 5 succeeds but leaves viewedAt unset even though viewed sits before
the target stage. -/
theorem advanceStatus_no_backfill_of_viewed :
    statusIndex RequestStatus.maintenance_requested =
      statusIndex reqLegacy.status + 1 ∧
    advanceStatus reqLegacy RequestStatus.maintenance_requested 5 =
      Except.ok reqLegacyAdv ∧
    statusIndex RequestStatus.viewed <
      statusIndex RequestStatus.maintenance_requested ∧
    reqLegacyAdv.viewedAt = none := by
  decide

/-- C3 (amended): a legal one-step advance succeeds and yields status =
requested and lastUpdatedByRole = manager; the target stage is stamped with
now exactly when it was unset and kept otherwise; in_queue alone is
back-filled (from createdAt, or now when createdAt is unavailable) when it was
unset; every other non-target stage is left exactly as it was, so earlier
unset intermediate stages are not back-filled. -/
theorem advanceStatus_forward_spec (r : Request) (requested : RequestStatus)
    (now : Nat) (h : statusIndex requested = statusIndex r.status + 1) :
    ∃ r', advanceStatus r requested now = Except.ok r' ∧
      r'.status = requested ∧ r'.lastUpdatedByRole = Role.manager ∧
      stampAt r' requested = some ((stampAt r requested).getD now) ∧
      stampAt r' RequestStatus.in_queue =
        some ((stampAt r RequestStatus.in_queue).getD (r.createdAt.getD now)) ∧
      ∀ s, s ≠ requested → s ≠ RequestStatus.in_queue →
        stampAt r' s = stampAt r s := by
  obtain ⟨r', hok⟩ := advanceStatus_isOk (Or.inr h)
  obtain ⟨hst, hrole, _, _, _, hstamps⟩ := advanceStatus_ok_fields hok
  have hreqNotQ : requested ≠ RequestStatus.in_queue := by
    intro hbad
    rw [hbad] at h
    simp at h
  refine ⟨r', hok, hst, hrole, ?_, ?_, ?_⟩
  · rcases hopt : stampAt r requested with _ | a
    · rw [hstamps requested, if_pos ⟨rfl, hopt⟩]
      rfl
    · have hc1 : ¬(requested = requested ∧ stampAt r requested = none) := by
        rintro ⟨_, h2⟩
        rw [hopt] at h2
        simp at h2
      have hc2 : ¬(requested = RequestStatus.in_queue ∧ r.inQueueAt = none) := by
        rintro ⟨h1, _⟩
        exact hreqNotQ h1
      rw [hstamps requested, if_neg hc1, if_neg hc2, hopt]
      rfl
  · have hq := hstamps RequestStatus.in_queue
    rw [if_neg] at hq
    · rcases hoq : r.inQueueAt with _ | a
      · rw [if_pos ⟨rfl, hoq⟩] at hq
        rw [hq]
        simp [stampAt, hoq]
      · rw [if_neg] at hq
        · rw [hq]
          simp [stampAt, hoq]
        · rintro ⟨_, hbad⟩
          rw [hoq] at hbad
          simp at hbad
    · rintro ⟨hbad, _⟩
      exact hreqNotQ hbad.symm
  · intro s hs1 hs2
    have hc1 : ¬(s = requested ∧ stampAt r s = none) := by
      rintro ⟨h1, _⟩
      exact hs1 h1
    have hc2 : ¬(s = RequestStatus.in_queue ∧ r.inQueueAt = none) := by
      rintro ⟨h1, _⟩
      exact hs2 h1
    rw [hstamps s, if_neg hc1, if_neg hc2]

/-- C3 witness: scenario A — the request created at 0 advanced to viewed at 1
ends with status viewed, viewedAt = 1 and inQueueAt unchanged at 0. -/
theorem advanceStatus_forward_spec_witness :
    statusIndex RequestStatus.viewed = statusIndex exReq0.status + 1 ∧
    (∃ r', advanceStatus exReq0 RequestStatus.viewed 1 = Except.ok r' ∧
      r'.status = RequestStatus.viewed ∧ r'.lastUpdatedByRole = Role.manager ∧
      stampAt r' RequestStatus.viewed =
        some ((stampAt exReq0 RequestStatus.viewed).getD 1) ∧
      stampAt r' RequestStatus.in_queue =
        some ((stampAt exReq0 RequestStatus.in_queue).getD (exReq0.createdAt.getD 1)) ∧
      ∀ s, s ≠ RequestStatus.viewed → s ≠ RequestStatus.in_queue →
        stampAt r' s = stampAt exReq0 s) :=
  ⟨by decide, advanceStatus_forward_spec exReq0 RequestStatus.viewed 1 (by decide)⟩

/-- C4: a requested status that differs from the current one and is not
exactly one pipeline position ahead (a skip forward or any move backward) is
rejected with the out-of-order error and the stored request is unmodified. -/
theorem advanceStatus_out_of_order (r : Request) (requested : RequestStatus)
    (now : Nat) (h1 : requested ≠ r.status)
    (h2 : statusIndex requested ≠ statusIndex r.status + 1) :
    advanceStatus r requested now = Except.error AdvanceError.outOfOrder ∧
    applyOp r (Op.advance requested now) = r := by
  have herr : advanceStatus r requested now = Except.error AdvanceError.outOfOrder := by
    simp only [advanceStatus]
    rw [if_pos ⟨h1, h2⟩]
  refine ⟨herr, ?_⟩
  simp [applyOp, herr]

/-- C4 witness: scenario B style — skipping from in_queue directly to
maintenance_requested is rejected and changes nothing. -/
theorem advanceStatus_out_of_order_witness :
    RequestStatus.maintenance_requested ≠ exReq0.status ∧
    statusIndex RequestStatus.maintenance_requested ≠ statusIndex exReq0.status + 1 ∧
    (advanceStatus exReq0 RequestStatus.maintenance_requested 1 =
      Except.error AdvanceError.outOfOrder ∧
     applyOp exReq0 (Op.advance RequestStatus.maintenance_requested 1) = exReq0) :=
  ⟨by decide, by decide,
   advanceStatus_out_of_order exReq0 RequestStatus.maintenance_requested 1
     (by decide) (by decide)⟩

/-- C5: non-decreasing timestamps — on every request reachable from a creation
through any sequence of advances, early closures and priority updates under a
non-backwards clock, any two set stage timestamps respect the pipeline order. -/
theorem reachable_timestamps_mono (r : Request) (t : Nat) (h : Reachable r t)
    (s1 s2 : RequestStatus) (a b : Nat)
    (hlt : statusIndex s1 < statusIndex s2)
    (h1 : stampAt r s1 = some a) (h2 : stampAt r s2 = some b) : a ≤ b :=
  (reachable_inv h).2.1 s1 s2 a b hlt h1 h2

/-- C5 witness: for the request created at 0 and advanced to viewed at 1 the
in_queue stamp 0 precedes the viewed stamp 1. -/
theorem reachable_timestamps_mono_witness :
    statusIndex RequestStatus.in_queue < statusIndex RequestStatus.viewed ∧
    stampAt exReq1 RequestStatus.in_queue = some 0 ∧
    stampAt exReq1 RequestStatus.viewed = some 1 ∧ (0 : Nat) ≤ 1 := by
  have hr : Reachable exReq1 1 :=
    Reachable.advanced exReq0 0 RequestStatus.viewed 1 exReq1
      (Reachable.created exBody 7 0 exReq0 (by decide)) (by decide) (by decide)
  exact ⟨by decide, by decide, by decide,
    reachable_timestamps_mono exReq1 1 hr RequestStatus.in_queue
      RequestStatus.viewed 0 1 (by decide) (by decide) (by decide)⟩

/-- C6: timestamp immutability — once a stage timestamp is set on any request,
no subsequent sequence of status advances, early closures (or priority
updates) ever changes or clears it. -/
theorem set_stamp_never_changed (r : Request) (s : RequestStatus) (a : Nat)
    (ops : List Op) (h : stampAt r s = some a) :
    stampAt (applyOps r ops) s = some a :=
  stampAt_applyOps_preserved ops h

/-- C6 witness: the maintenance_requested stamp of the scenario-C request
survives an advance followed by an early closure. -/
theorem set_stamp_never_changed_witness :
    stampAt reqC RequestStatus.maintenance_requested = some 2 ∧
    stampAt
      (applyOps reqC [Op.advance RequestStatus.implementing_actions 4, Op.close 6])
      RequestStatus.maintenance_requested = some 2 :=
  ⟨by decide,
   set_stamp_never_changed reqC RequestStatus.maintenance_requested 2
     [Op.advance RequestStatus.implementing_actions 4, Op.close 6] (by decide)⟩

/-- C7, counterexample: a same-status advanceStatus call is claimed to change
nothing but lastUpdatedByRole on every request.  On the legacy request sitting
at viewed with viewedAt unset, re-confirming viewed at instant 7 writes
viewedAt = 7, so the result differs from the request with only
lastUpdatedByRole updated. -/
theorem same_status_call_writes_viewedAt :
    reqLegacy.viewedAt = none ∧
    advanceStatus reqLegacy reqLegacy.status 7 = Except.ok reqLegacySame ∧
    reqLegacySame.viewedAt = some 7 ∧
    reqLegacySame ≠ { reqLegacy with lastUpdatedByRole := Role.manager } := by
  decide

/-- C7 (amended): on every request whose in_queue stamp and current-stage
stamp are set — which holds for every request this system itself created —
the same-status call never errors and returns the request unchanged except
for lastUpdatedByRole := manager. -/
theorem advanceStatus_same_status_frame (r : Request) (now : Nat)
    (hq : r.inQueueAt ≠ none) (hcur : stampAt r r.status ≠ none) :
    advanceStatus r r.status now =
      Except.ok { r with lastUpdatedByRole := Role.manager } := by
  obtain ⟨r', hok⟩ : ∃ r', advanceStatus r r.status now = Except.ok r' :=
    advanceStatus_isOk (Or.inl rfl)
  obtain ⟨hst, hrole, htid, hpri, hcre, hstamps⟩ := advanceStatus_ok_fields hok
  obtain ⟨hu, hca, hde, hph, hac, hp1, hp2⟩ := advanceStatus_ok_payload hok
  have hunch : ∀ s, stampAt r' s = stampAt r s := by
    intro s
    rw [hstamps s, if_neg, if_neg]
    · rintro ⟨_, h2⟩
      exact hq h2
    · rintro ⟨h1, h2⟩
      rw [h1] at h2
      exact hcur h2
  have hfin : r' = { r with lastUpdatedByRole := Role.manager } :=
    requestExt htid hu hca hde hph hac hp1 hp2 hpri hst hrole hcre
      (hunch RequestStatus.in_queue) (hunch RequestStatus.viewed)
      (hunch RequestStatus.maintenance_requested)
      (hunch RequestStatus.implementing_actions)
      (hunch RequestStatus.completed)
  rw [hok, hfin]

/-- C7 witness: the amended statement at the fully stamped scenario-C
request. -/
theorem advanceStatus_same_status_frame_witness :
    reqC.inQueueAt ≠ none ∧ stampAt reqC reqC.status ≠ none ∧
    advanceStatus reqC reqC.status 9 =
      Except.ok { reqC with lastUpdatedByRole := Role.manager } :=
  ⟨by decide, by decide,
   advanceStatus_same_status_frame reqC 9 (by decide) (by decide)⟩

/-- C8: closeEarly is idempotent — an already-completed request is returned
unchanged, and closing twice (at any two instants) equals closing once. -/
theorem closeEarly_idempotent (r : Request) (now1 now2 : Nat) :
    (r.status = RequestStatus.completed → closeEarly r now1 = r) ∧
    closeEarly (closeEarly r now1) now2 = closeEarly r now1 :=
  ⟨fun h => closeEarly_of_completed now1 h,
   closeEarly_of_completed now2 (closeEarly_status r now1)⟩

/-- C8 witness: scenario D — closing the completed request reqD changes
nothing, twice the same as once. -/
theorem closeEarly_idempotent_witness :
    reqD.status = RequestStatus.completed ∧ closeEarly reqD 5 = reqD ∧
    closeEarly (closeEarly reqD 5) 6 = closeEarly reqD 5 :=
  ⟨by decide, (closeEarly_idempotent reqD 5 6).1 (by decide),
   (closeEarly_idempotent reqD 5 6).2⟩

/-- C9, counterexample: the claim says a tenant who does not own the request
gets ForbiddenError.  The route instead answers with the not-found response:
tenant 2 closing the request owned by tenant 7 receives notFound, which is not
the forbidden response. -/
theorem close_wrong_tenant_not_forbidden :
    reqC.tenantId = 7 ∧ (7 : Nat) ≠ 2 ∧
    closeRoute Role.tenant 2 (some reqC) 3 = CloseResp.notFound ∧
    closeRoute Role.tenant 2 (some reqC) 3 ≠ CloseResp.forbidden := by
  decide

/-- C9 (amended): for every existing request and every tenant caller who is
not the owning tenant, the close route fails with the not-found response
(concealing the request's existence) and, returning before any update, leaves
the request unchanged. -/
theorem closeRoute_wrong_tenant_notFound (r : Request) (userId now : Nat)
    (h : r.tenantId ≠ userId) :
    closeRoute Role.tenant userId (some r) now = CloseResp.notFound := by
  simp [closeRoute, h]

/-- C9 witness: the amended statement at tenant 2 and the request owned by
tenant 7. -/
theorem closeRoute_wrong_tenant_notFound_witness :
    reqC.tenantId ≠ 2 ∧
    closeRoute Role.tenant 2 (some reqC) 5 = CloseResp.notFound :=
  ⟨by decide, closeRoute_wrong_tenant_notFound reqC 2 5 (by decide)⟩

/-- C10: when the rest of the body is valid, creation always succeeds whatever
the supplied priority: an absent or unrecognized priority is silently replaced
by normal rather than rejected, and a priority from the allowed set is stored
verbatim. -/
theorem createRequest_priority_defaulted (body : CreateBody) (tenantId now : Nat)
    (hu : ¬ falsy body.unit) (hc : ¬ falsy body.category)
    (hd : ¬ falsy body.description) (hp : ¬ falsy body.phone)
    (hw1 : ¬ falsy body.preferredWindow1)
    (hw1v : body.preferredWindow1.getD "" ∈ allowedWindowOptions)
    (hw2 : falsy body.preferredWindow2 ∨
      (body.preferredWindow2.getD "" ∈ allowedWindowOptions ∧
       body.preferredWindow1.getD "" ≠ body.preferredWindow2.getD "")) :
    ∃ r, createRequest body tenantId now = Except.ok r ∧
      (falsy body.priority ∨ body.priority.getD "" ∉ allowedPriorities →
        r.priority = "normal") ∧
      (¬ falsy body.priority → body.priority.getD "" ∈ allowedPriorities →
        r.priority = body.priority.getD "") := by
  have hok : ∃ r, createRequest body tenantId now = Except.ok r := by
    have c1 : ¬(falsy body.unit ∨ falsy body.category ∨ falsy body.description ∨
        falsy body.phone) := by
      rintro (h' | h' | h' | h')
      · exact hu h'
      · exact hc h'
      · exact hd h'
      · exact hp h'
    have c2 : ¬(falsy body.preferredWindow1 ∨
        body.preferredWindow1.getD "" ∉ allowedWindowOptions) := by
      rintro (h' | h')
      · exact hw1 h'
      · exact h' hw1v
    have c3 : ¬(¬ falsy body.preferredWindow2 ∧
        body.preferredWindow2.getD "" ∉ allowedWindowOptions) := by
      rintro ⟨hnf2, hnotin⟩
      rcases hw2 with h' | ⟨hin, _⟩
      · exact hnf2 h'
      · exact hnotin hin
    have c4 : ¬(¬ falsy body.preferredWindow1 ∧ ¬ falsy body.preferredWindow2 ∧
        body.preferredWindow1.getD "" = body.preferredWindow2.getD "") := by
      rintro ⟨_, hnf2, heqw⟩
      rcases hw2 with h' | ⟨_, hne⟩
      · exact hnf2 h'
      · exact hne heqw
    simp only [createRequest]
    rw [if_neg c1, if_neg c2, if_neg c3, if_neg c4]
    exact ⟨_, rfl⟩
  obtain ⟨r, hokr⟩ := hok
  obtain ⟨_, _, _, _, _, _, _, _, _, hnorm, hverb⟩ := createRequest_ok_fields hokr
  exact ⟨r, hokr, hnorm, hverb⟩

/-- C10 witness: the body with the unrecognized priority urgent is accepted
and stored with priority normal. -/
theorem createRequest_priority_defaulted_witness :
    ¬ falsy exBodyBadPriority.unit ∧ ¬ falsy exBodyBadPriority.category ∧
    ¬ falsy exBodyBadPriority.description ∧ ¬ falsy exBodyBadPriority.phone ∧
    ¬ falsy exBodyBadPriority.preferredWindow1 ∧
    exBodyBadPriority.preferredWindow1.getD "" ∈ allowedWindowOptions ∧
    falsy exBodyBadPriority.preferredWindow2 ∧
    exBodyBadPriority.priority.getD "" ∉ allowedPriorities ∧
    (∃ r, createRequest exBodyBadPriority 7 0 = Except.ok r ∧
      (falsy exBodyBadPriority.priority ∨
        exBodyBadPriority.priority.getD "" ∉ allowedPriorities →
        r.priority = "normal") ∧
      (¬ falsy exBodyBadPriority.priority →
        exBodyBadPriority.priority.getD "" ∈ allowedPriorities →
        r.priority = exBodyBadPriority.priority.getD "")) :=
  ⟨by decide, by decide, by decide, by decide, by decide, by decide, by decide,
   by decide,
   createRequest_priority_defaulted exBodyBadPriority 7 0 (by decide) (by decide)
     (by decide) (by decide) (by decide) (by decide) (Or.inl (by decide))⟩

end Kefiat
